import Mathlib

/-!
# Verification of the TAK-Network geofence store service

A shallow embedding of `src/server/server.py`: a Flask service with two
endpoints over a sqlite table `fences`.

* JSON values are modelled by the inductive `Json` (numbers as integers:
  the structural properties under study are independent of the numeric
  representation).
* Python's `dict.get` (including the `AttributeError` raised when `.get`
  is invoked on a non-dict) is modelled by `pyGet` / `pyGetD` returning
  `Option`.
* `json.dumps` is modelled by `Json.dumps` (default separators `", "`
  and `": "`, as CPython produces), and the `json.loads` decoding of the
  fragment relevant to coordinate structures (null / numbers / nested
  arrays) by `loads`.
* sqlite parameter binding is modelled by `bindParam`: binding a list or
  a dict raises `InterfaceError`, i.e. returns `none`.
* The persistent table is a `List Row` in insertion order (rowid order,
  which is what `SELECT * FROM fences` returns for an append-only table).
* `create_geofence` and `get_geofences` are the two handlers; an uncaught
  Python exception surfaces as a generic server error and, since it is
  raised before `conn.execute`/`conn.commit` completes, leaves the table
  unchanged.
-/

/-- JSON values as decoded by `request.get_json()`.  Numbers are carried
as integers; booleans do not occur in any payload under study. -/
inductive Json where
  | null : Json
  | num : Int → Json
  | str : String → Json
  | arr : List Json → Json
  | obj : List (String × Json) → Json
deriving Repr

/-- First-match association lookup, the model of Python dict indexing
(JSON objects decoded by `json` have unique keys). -/
def lookupKV (kvs : List (String × Json)) (k : String) : Option Json :=
  match kvs with
  | [] => none
  | (k2, v) :: rest => if k2 = k then some v else lookupKV rest k

/-- Python `x.get(k)` (default `None`): succeeds only when `x` is a dict,
otherwise the interpreter raises `AttributeError` (`none`).  An absent key
yields Python `None`, i.e. `Json.null`. -/
def pyGet (j : Json) (k : String) : Option Json :=
  match j with
  | .obj kvs => some ((lookupKV kvs k).getD Json.null)
  | _ => none

/-- Python `x.get(k, d)` with an explicit default `d`. -/
def pyGetD (j : Json) (k : String) (d : Json) : Option Json :=
  match j with
  | .obj kvs => some ((lookupKV kvs k).getD d)
  | _ => none

/-- A value stored in one column of the sqlite `fences` table. -/
inductive SqlVal where
  | null : SqlVal
  | int : Int → SqlVal
  | text : String → SqlVal
deriving Repr, DecidableEq

/-- sqlite3 parameter binding: `None`, numbers and strings bind; binding a
list or a dict raises `InterfaceError` (`none`). -/
def bindParam : Json → Option SqlVal
  | .null => some .null
  | .num n => some (.int n)
  | .str s => some (.text s)
  | .arr _ => none
  | .obj _ => none

/-- One row of the `fences` table, columns as in `schema.sql` /
the INSERT statement of `create_geofence`.  `coordinates` is always the
text produced by `json.dumps`. -/
structure Row where
  fence_id : SqlVal
  name : SqlVal
  notes : SqlVal
  created_at : SqlVal
  coordinates : String
deriving Repr, DecidableEq

/- ## The model of `json.dumps` -/

/-- Decimal digit characters of a natural number, most significant first;
`fuel` bounds the recursion depth (any `fuel > n` gives the true digits). -/
def natCharsAux : Nat → Nat → List Char
  | 0, _ => []
  | fuel + 1, n =>
    if n < 10 then [Char.ofNat (48 + n)]
    else natCharsAux fuel (n / 10) ++ [Char.ofNat (48 + n % 10)]

/-- Decimal digit characters of a natural number, most significant first. -/
def natChars (n : Nat) : List Char :=
  natCharsAux (n + 1) n

/-- Decimal rendering of an integer (a leading minus sign when negative). -/
def intChars (n : Int) : List Char :=
  if n < 0 then '-' :: natChars n.natAbs else natChars n.natAbs

/-- JSON string-escaping of one character (quote and backslash). -/
def escChar (c : Char) : List Char :=
  if c = Char.ofNat 34 then [Char.ofNat 92, Char.ofNat 34]
  else if c = Char.ofNat 92 then [Char.ofNat 92, Char.ofNat 92]
  else [c]

mutual

/-- The characters emitted by `json.dumps` (CPython defaults: separators
`", "` between items and `": "` between a key and its value). -/
def Json.dumpChars : Json → List Char
  | .null => ['n', 'u', 'l', 'l']
  | .num n => intChars n
  | .str s => Char.ofNat 34 :: (s.data.flatMap escChar ++ [Char.ofNat 34])
  | .arr xs =>
    match xs with
    | [] => ['[', ']']
    | x :: rest => '[' :: (Json.dumpChars x ++ Json.dumpSep rest ++ [']'])
  | .obj kvs =>
    match kvs with
    | [] => [Char.ofNat 123, Char.ofNat 125]
    | kv :: rest =>
      Char.ofNat 123 :: (Json.dumpMember kv ++ Json.dumpSepObj rest ++ [Char.ofNat 125])

/-- Separator and rendering for each further array element. -/
def Json.dumpSep : List Json → List Char
  | [] => []
  | x :: rest => ',' :: ' ' :: (Json.dumpChars x ++ Json.dumpSep rest)

/-- Rendering of one object member, key and value. -/
def Json.dumpMember : String × Json → List Char
  | (k, v) =>
    Char.ofNat 34 :: (k.data.flatMap escChar ++ (Char.ofNat 34 :: ':' :: ' ' :: Json.dumpChars v))

/-- Separator and rendering for each further object member. -/
def Json.dumpSepObj : List (String × Json) → List Char
  | [] => []
  | kv :: rest => ',' :: ' ' :: (Json.dumpMember kv ++ Json.dumpSepObj rest)

end

/-- The model of `json.dumps`, as the service applies at line 36 of `server.py`. -/
def Json.dumps (j : Json) : String :=
  String.mk j.dumpChars

/- ## The two request handlers -/

/-- Outcome of a `POST /api/geofence` request: either HTTP 201 with the
success body, or an uncaught exception surfacing as a server error. -/
inductive CreateResult where
  | created : Nat → Json → CreateResult
  | serverError : CreateResult
deriving Repr

/-- The JSON body returned by a successful create. -/
def successBody : Json :=
  Json.obj [("status", Json.str "success"),
            ("message", Json.str "Geofence created and stored")]

/-- The extraction-and-binding phase of `create_geofence` (lines 28-42 of
`server.py`): pull the five fields out of the payload with `dict.get`,
serialize the coordinates with `json.dumps`, and bind the sqlite
parameters.  `none` models an uncaught exception (`AttributeError` from
`.get` on a non-dict, or sqlite `InterfaceError` on a non-primitive
bound value), which aborts the request before any row is inserted. -/
def extractRow (data : Json) : Option Row := do
  let fid ← pyGet data "fence_id"
  let props ← pyGetD data "properties" (Json.obj [])
  let nameV ← pyGet props "name"
  let notesV ← pyGet props "notes"
  let createdV ← pyGet data "created_at"
  let shape ← pyGetD data "shape" (Json.obj [])
  let coords ← pyGet shape "coordinates"
  let fenceSql ← bindParam fid
  let nameSql ← bindParam nameV
  let notesSql ← bindParam notesV
  let createdSql ← bindParam createdV
  pure { fence_id := fenceSql, name := nameSql, notes := notesSql,
         created_at := createdSql, coordinates := Json.dumps coords }

/-- Handler for `POST /api/geofence`: extract, then `INSERT` one row and commit,
returning 201 and the success body.  On an uncaught exception the table
is unchanged and the client sees a generic server error. -/
def create_geofence (data : Json) (db : List Row) : List Row × CreateResult :=
  match extractRow data with
  | some r => (db ++ [r], .created 201 successBody)
  | none => (db, .serverError)

/-- Handler for `GET /api/geofences`: `SELECT * FROM fences`, convert each row to a
dict and return the list with status 200.  The first component is the
table after the request (reading does not modify it); `dict(row)`
preserves every column value, so each returned record is the row itself,
its `coordinates` still in serialized textual form. -/
def get_geofences (db : List Row) : List Row × (List Row × Nat) :=
  (db, (db.map (fun row => row), 200))

/-- Running a sequence of create requests against a store, threading the
table state; a failed request leaves the table as it was. -/
def runCreates (ps : List Json) (db : List Row) : List Row :=
  match ps with
  | [] => db
  | p :: rest => runCreates rest (create_geofence p db).1

/- ## The model of `json.loads` on coordinate structures

`json.loads` is the decoder paired with the `json.dumps` call at line 36;
coordinates are arbitrarily nested arrays of numbers (possibly `null`), so
the decoder is modelled on exactly that fragment of the JSON grammar. -/

/-- Skip blank characters, as `json.loads` does between tokens. -/
def skipSpaces : List Char → List Char
  | [] => []
  | c :: cs => if c = ' ' then skipSpaces cs else c :: cs

/-- Numeric value of a decimal digit character. -/
def digitVal (c : Char) : Nat :=
  c.toNat - 48

/-- Consume a maximal run of decimal digits, folding them onto `acc`. -/
def parseDigits (acc : Nat) : List Char → Nat × List Char
  | [] => (acc, [])
  | c :: cs =>
    if c.isDigit then parseDigits (10 * acc + digitVal c) cs else (acc, c :: cs)

/-- Parse an unsigned integer literal: at least one leading digit. -/
def parseNat (cs : List Char) : Option (Nat × List Char) :=
  match cs with
  | [] => none
  | c :: rest =>
    if c.isDigit then some (parseDigits (digitVal c) rest) else none

mutual

/-- Recursive-descent parser for the coordinate fragment of JSON
(null, integer numbers, arrays); `fuel` bounds the recursion depth. -/
def parseVal : Nat → List Char → Option (Json × List Char)
  | 0, _ => none
  | fuel + 1, cs =>
    match cs with
    | 'n' :: 'u' :: 'l' :: 'l' :: rest => some (Json.null, rest)
    | '[' :: rest =>
      match skipSpaces rest with
      | ']' :: rest2 => some (Json.arr [], rest2)
      | rest2 =>
        match parseVal fuel rest2 with
        | none => none
        | some (v, rest3) =>
          match parseArrTail fuel rest3 with
          | none => none
          | some (vs, rest4) => some (Json.arr (v :: vs), rest4)
    | '-' :: rest =>
      match parseNat rest with
      | none => none
      | some (n, rest2) => some (Json.num (-(n : Int)), rest2)
    | _ =>
      match parseNat cs with
      | none => none
      | some (n, rest2) => some (Json.num (n : Int), rest2)

/-- After one array element: either `]` closes the array, or `,` is
followed by the next element. -/
def parseArrTail : Nat → List Char → Option (List Json × List Char)
  | 0, _ => none
  | fuel + 1, cs =>
    match skipSpaces cs with
    | ']' :: rest => some ([], rest)
    | ',' :: rest =>
      match parseVal fuel (skipSpaces rest) with
      | none => none
      | some (v, rest2) =>
        match parseArrTail fuel rest2 with
        | none => none
        | some (vs, rest3) => some (v :: vs, rest3)
    | _ => none

end

/-- The model of `json.loads` on the coordinate fragment: parse one value and require
that only blanks remain.  The fuel `2·length + 2` always exceeds the
nesting depth of the input, so it never cuts a parse short. -/
def loads (s : String) : Option Json :=
  match parseVal (2 * s.length + 2) (skipSpaces s.data) with
  | some (v, rest) => if skipSpaces rest = [] then some v else none
  | none => none

mutual

/-- A coordinates structure: arbitrarily nested arrays of numbers (or
`null`, the serialization of an absent coordinates field). -/
def isCoord : Json → Bool
  | .null => true
  | .num _ => true
  | .str _ => false
  | .arr xs => isCoordList xs
  | .obj _ => false

/-- All members of the list are coordinate structures. -/
def isCoordList : List Json → Bool
  | [] => true
  | x :: xs => isCoord x && isCoordList xs

end

mutual

/-- Parser fuel sufficient for a value (used to discharge the fuel bound
in the round-trip proof). -/
def jsize : Json → Nat
  | .null => 1
  | .num _ => 1
  | .str _ => 1
  | .arr xs => 1 + jsizeL xs
  | .obj _ => 1

/-- Parser fuel sufficient for an array tail. -/
def jsizeL : List Json → Nat
  | [] => 1
  | x :: xs => 1 + jsize x + jsizeL xs

end

/-- The digit-folding step used by `parseDigits`. -/
def stepD (a : Nat) (c : Char) : Nat :=
  10 * a + digitVal c

/-- The next character (if any) is not a decimal digit, so a maximal digit
run cannot spill into it. -/
def noDigitHead : List Char → Prop
  | [] => True
  | c :: _ => c.isDigit = false

/- ## Claim-side definitions -/

/-- Whether a JSON value is an object (a Python dict). -/
def Json.isObj : Json → Bool
  | .obj _ => true
  | _ => false

/-- The column value corresponding to an optional payload value: the
value itself when it is a string or a number, SQL NULL when it is absent
or null. -/
def specOf : Option Json → SqlVal
  | some (.str s) => .text s
  | some (.num n) => .int n
  | _ => .null

/-- The column value the specification expects a stored record to carry
for a top-level payload field `k`: the payload's value when present as a
string or number, SQL NULL when the field is absent or null. -/
def specField (p : Json) (k : String) : SqlVal :=
  match p with
  | .obj kvs => specOf (lookupKV kvs k)
  | _ => .null

/-- The column value the specification expects for `properties.k`:
the nested value when `properties` is an object carrying `k` as a string
or number, SQL NULL when `properties` or the nested field is absent. -/
def specProp (p : Json) (k : String) : SqlVal :=
  match p with
  | .obj kvs =>
    match lookupKV kvs "properties" with
    | some (.obj m) => specOf (lookupKV m k)
    | _ => .null
  | _ => .null

/-- A payload the service accepts: its extraction-and-binding phase
raises no exception. -/
def ValidPayload (p : Json) : Prop :=
  (extractRow p).isSome = true

instance (p : Json) : Decidable (ValidPayload p) :=
  inferInstanceAs (Decidable ((extractRow p).isSome = true))

/-- The example payload of the specification:
`{"fence_id":"f1","properties":{"name":"Yard","notes":"back"},
"created_at":"2024-01-01T00:00:00Z","shape":{"coordinates":[[1.0,2.0],[3.0,4.0]]}}`. -/
def examplePayload : Json :=
  Json.obj
    [("fence_id", Json.str "f1"),
     ("properties", Json.obj [("name", Json.str "Yard"), ("notes", Json.str "back")]),
     ("created_at", Json.str "2024-01-01T00:00:00Z"),
     ("shape", Json.obj
       [("coordinates", Json.arr [Json.arr [Json.num 1, Json.num 2],
                                  Json.arr [Json.num 3, Json.num 4]])])]

/-- The example coordinates structure `[[1.0,2.0],[3.0,4.0]]`. -/
def exampleCoords : Json :=
  Json.arr [Json.arr [Json.num 1, Json.num 2], Json.arr [Json.num 3, Json.num 4]]

/- ## Digit-string lemmas -/

theorem digitChar_isDigit : ∀ d, d < 10 → (Char.ofNat (48 + d)).isDigit = true := by
  decide

theorem digitVal_digitChar : ∀ d, d < 10 → digitVal (Char.ofNat (48 + d)) = d := by
  decide

theorem natCharsAux_stable (n : Nat) : ∀ fuel, n < fuel → natCharsAux fuel n = natChars n := by
  induction n using Nat.strong_induction_on with
  | _ n ih =>
    intro fuel hfuel
    match fuel, hfuel with
    | f + 1, _ =>
      by_cases h10 : n < 10
      · simp [natCharsAux, natChars, h10]
      · have hdiv : n / 10 < n := Nat.div_lt_self (by omega) (by omega)
        have e1 : natCharsAux (f + 1) n = natCharsAux f (n / 10) ++ [Char.ofNat (48 + n % 10)] := by
          simp [natCharsAux, h10]
        have e2 : natChars n = natCharsAux n (n / 10) ++ [Char.ofNat (48 + n % 10)] := by
          simp [natChars, natCharsAux, h10]
        rw [e1, e2, ih (n / 10) hdiv f (by omega), ih (n / 10) hdiv n (by omega)]

/-- The recursive characterization of `natChars`. -/
theorem natChars_eq (n : Nat) :
    natChars n = if n < 10 then [Char.ofNat (48 + n)]
      else natChars (n / 10) ++ [Char.ofNat (48 + n % 10)] := by
  by_cases h10 : n < 10
  · simp [natChars, natCharsAux, h10]
  · have hdiv : n / 10 < n := Nat.div_lt_self (by omega) (by omega)
    simp only [h10, if_false]
    rw [natChars]
    have : n + 1 = (n) + 1 := rfl
    simp only [natCharsAux, h10, if_false]
    rw [natCharsAux_stable (n / 10) n (by omega)]

theorem natChars_ne_nil (n : Nat) : natChars n ≠ [] := by
  rw [natChars_eq]
  by_cases h10 : n < 10 <;> simp [h10]

theorem natChars_digits (n : Nat) : ∀ c ∈ natChars n, c.isDigit = true := by
  induction n using Nat.strong_induction_on with
  | _ n ih =>
    rw [natChars_eq]
    by_cases h10 : n < 10
    · simp only [h10, if_true, List.mem_singleton]
      rintro c rfl
      exact digitChar_isDigit n h10
    · have hdiv : n / 10 < n := Nat.div_lt_self (by omega) (by omega)
      simp only [h10, if_false, List.mem_append, List.mem_singleton]
      rintro c (hc | rfl)
      · exact ih (n / 10) hdiv c hc
      · exact digitChar_isDigit (n % 10) (Nat.mod_lt _ (by omega))

theorem foldl_natChars (n : Nat) : List.foldl stepD 0 (natChars n) = n := by
  induction n using Nat.strong_induction_on with
  | _ n ih =>
    rw [natChars_eq]
    by_cases h10 : n < 10
    · simp [h10, stepD, digitVal_digitChar n h10]
    · have hdiv : n / 10 < n := Nat.div_lt_self (by omega) (by omega)
      simp only [h10, if_false, List.foldl_append, List.foldl_cons, List.foldl_nil]
      rw [ih (n / 10) hdiv]
      simp [stepD, digitVal_digitChar (n % 10) (Nat.mod_lt _ (by omega))]
      omega

theorem parseDigits_spec (ds : List Char) (hds : ∀ c ∈ ds, c.isDigit = true) :
    ∀ acc rest, noDigitHead rest →
      parseDigits acc (ds ++ rest) = (List.foldl stepD acc ds, rest) := by
  induction ds with
  | nil =>
    intro acc rest hrest
    match rest with
    | [] => rfl
    | c :: cs =>
      have hc : c.isDigit = false := hrest
      simp [parseDigits, hc]
  | cons c cs ih =>
    intro acc rest hrest
    have hc : c.isDigit = true := hds c (List.mem_cons_self c cs)
    simp only [List.cons_append, parseDigits, hc, if_true, List.foldl_cons]
    exact ih (fun d hd => hds d (List.mem_cons_of_mem c hd)) _ rest hrest

theorem parseNat_natChars (n : Nat) (rest : List Char) (hrest : noDigitHead rest) :
    parseNat (natChars n ++ rest) = some (n, rest) := by
  obtain ⟨c, ds, hcds⟩ : ∃ c ds, natChars n = c :: ds := by
    match h : natChars n with
    | [] => exact absurd h (natChars_ne_nil n)
    | c :: ds => exact ⟨c, ds, rfl⟩
  have hdig : ∀ d ∈ natChars n, d.isDigit = true := natChars_digits n
  have hc : c.isDigit = true := hdig c (by rw [hcds]; exact List.mem_cons_self c ds)
  have hds : ∀ d ∈ ds, d.isDigit = true := fun d hd =>
    hdig d (by rw [hcds]; exact List.mem_cons_of_mem c hd)
  rw [hcds]
  simp only [List.cons_append, parseNat, hc, if_true]
  rw [parseDigits_spec ds hds _ rest hrest]
  have : List.foldl stepD (digitVal c) ds = List.foldl stepD 0 (natChars n) := by
    rw [hcds]
    simp [stepD]
  rw [this, foldl_natChars]

/- ## Head-character and blank-skipping lemmas -/

theorem isDigit_ne {c : Char} (h : c.isDigit = true) : c ≠ ' ' ∧ c ≠ ']' := by
  constructor <;> rintro rfl <;> exact absurd h (by decide)

theorem natChars_cons (n : Nat) : ∃ c t, natChars n = c :: t ∧ c.isDigit = true := by
  match h : natChars n with
  | [] => exact absurd h (natChars_ne_nil n)
  | c :: t =>
    exact ⟨c, t, rfl, natChars_digits n c (by rw [h]; exact List.mem_cons_self c t)⟩

theorem skipSpaces_cons_ne (c : Char) (cs : List Char) (h : c ≠ ' ') :
    skipSpaces (c :: cs) = c :: cs := by
  simp [skipSpaces, h]

theorem skipSpaces_cons_space (cs : List Char) : skipSpaces (' ' :: cs) = skipSpaces cs := by
  simp [skipSpaces]

theorem dumpChars_head (j : Json) (hc : isCoord j = true) :
    ∃ c t, Json.dumpChars j = c :: t ∧ c ≠ ' ' ∧ c ≠ ']' := by
  cases j with
  | null => exact ⟨'n', ['u', 'l', 'l'], rfl, by decide, by decide⟩
  | num n =>
    by_cases hn : n < 0
    · exact ⟨'-', natChars n.natAbs, by simp [Json.dumpChars, intChars, hn], by decide, by decide⟩
    · obtain ⟨c, t, hct, hdig⟩ := natChars_cons n.natAbs
      exact ⟨c, t, by simp [Json.dumpChars, intChars, hn, hct], (isDigit_ne hdig).1,
        (isDigit_ne hdig).2⟩
  | str s => simp [isCoord] at hc
  | arr xs =>
    match xs with
    | [] => exact ⟨'[', [']'], rfl, by decide, by decide⟩
    | x :: rest =>
      exact ⟨'[', Json.dumpChars x ++ Json.dumpSep rest ++ [']'], rfl, by decide, by decide⟩
  | obj kvs => simp [isCoord] at hc

theorem jsize_pos (j : Json) : 1 ≤ jsize j := by
  cases j <;> simp [jsize]

theorem jsizeL_pos (xs : List Json) : 1 ≤ jsizeL xs := by
  cases xs with
  | nil => simp [jsizeL]
  | cons x xs => simp only [jsizeL]; omega

theorem skipSpaces_dump (x : Json) (hc : isCoord x = true) (u : List Char) :
    skipSpaces (Json.dumpChars x ++ u) = Json.dumpChars x ++ u := by
  obtain ⟨c, t, hct, hsp, _⟩ := dumpChars_head x hc
  rw [hct, List.cons_append, skipSpaces_cons_ne c (t ++ u) hsp]

theorem noDigitHead_sep (xs : List Json) (rest : List Char) :
    noDigitHead (Json.dumpSep xs ++ ']' :: rest) := by
  cases xs with
  | nil => simp [Json.dumpSep, noDigitHead]
  | cons y ys => simp [Json.dumpSep, noDigitHead]

/-- Round-trip of the serializer and the parser, generic in the fuel:
with enough fuel, parsing the serialized form of a coordinates structure
consumes exactly it and returns it. -/
theorem parse_dump (fuel : Nat) :
    (∀ j, isCoord j = true → jsize j ≤ fuel → ∀ rest, noDigitHead rest →
      parseVal fuel (Json.dumpChars j ++ rest) = some (j, rest)) ∧
    (∀ xs, isCoordList xs = true → jsizeL xs ≤ fuel → ∀ rest,
      parseArrTail fuel (Json.dumpSep xs ++ ']' :: rest) = some (xs, rest)) := by
  induction fuel with
  | zero =>
    constructor
    · intro j _ hsz
      have := jsize_pos j
      omega
    · intro xs _ hsz
      have := jsizeL_pos xs
      omega
  | succ f ih =>
    obtain ⟨ihV, ihT⟩ := ih
    constructor
    · intro j hc hsz rest hrest
      cases j with
      | str s => simp [isCoord] at hc
      | obj kvs => simp [isCoord] at hc
      | null => rfl
      | num n =>
        by_cases hn : n < 0
        · have hform : Json.dumpChars (Json.num n) = '-' :: natChars n.natAbs := by
            simp [Json.dumpChars, intChars, hn]
          have step : ∀ u, parseVal (f + 1) ('-' :: u) =
              (match parseNat u with
               | none => none
               | some (m, r2) => some (Json.num (-(m : Int)), r2)) := fun u => rfl
          rw [hform, List.cons_append, step, parseNat_natChars n.natAbs rest hrest]
          simp only [Option.some.injEq, Prod.mk.injEq]
          refine ⟨?_, trivial⟩
          congr 1
          omega
        · have hform : Json.dumpChars (Json.num n) = natChars n.natAbs := by
            simp [Json.dumpChars, intChars, hn]
          obtain ⟨c, t, hct, hdig⟩ := natChars_cons n.natAbs
          rw [hform, hct, List.cons_append]
          unfold parseVal
          split
          · rename_i heq
            rw [List.cons.injEq] at heq
            have : c.isDigit = false := by rw [heq.1]; decide
            rw [hdig] at this
            exact absurd this (by decide)
          · rename_i heq
            rw [List.cons.injEq] at heq
            have : c.isDigit = false := by rw [heq.1]; decide
            rw [hdig] at this
            exact absurd this (by decide)
          · rename_i heq
            rw [List.cons.injEq] at heq
            have : c.isDigit = false := by rw [heq.1]; decide
            rw [hdig] at this
            exact absurd this (by decide)
          · rw [← List.cons_append, ← hct, parseNat_natChars n.natAbs rest hrest]
            simp only [Option.some.injEq, Prod.mk.injEq]
            refine ⟨?_, trivial⟩
            congr 1
            omega
      | arr xs =>
        cases xs with
        | nil =>
          have hsz2 : jsize (Json.arr []) ≤ f + 1 := hsz
          rfl
        | cons x xs =>
          have hform : Json.dumpChars (Json.arr (x :: xs)) ++ rest =
              '[' :: (Json.dumpChars x ++ (Json.dumpSep xs ++ ']' :: rest)) := by
            simp [Json.dumpChars, List.append_assoc]
          have hcx : isCoord x = true ∧ isCoordList xs = true := by
            simpa [isCoord, isCoordList, Bool.and_eq_true] using hc
          have hszx : jsize x ≤ f ∧ jsizeL xs ≤ f := by
            simp only [jsize, jsizeL] at hsz
            omega
          have step : ∀ u, parseVal (f + 1) ('[' :: u) =
              (match skipSpaces u with
               | ']' :: rest2 => some (Json.arr [], rest2)
               | rest2 =>
                 match parseVal f rest2 with
                 | none => none
                 | some (v, rest3) =>
                   match parseArrTail f rest3 with
                   | none => none
                   | some (vs, rest4) => some (Json.arr (v :: vs), rest4)) := fun u => rfl
          rw [hform, step, skipSpaces_dump x hcx.1]
          obtain ⟨c, t, hct, hsp, hbr⟩ := dumpChars_head x hcx.1
          split
          · rename_i heq
            rw [hct, List.cons_append, List.cons.injEq] at heq
            exact absurd heq.1 hbr
          · rw [ihV x hcx.1 hszx.1 _ (noDigitHead_sep xs rest)]
            simp [ihT xs hcx.2 hszx.2 rest]
    · intro xs hc hsz rest
      cases xs with
      | nil => rfl
      | cons y ys =>
        have hcy : isCoord y = true ∧ isCoordList ys = true := by
          simpa [isCoordList, Bool.and_eq_true] using hc
        have hszy : jsize y ≤ f ∧ jsizeL ys ≤ f := by
          simp only [jsizeL] at hsz
          omega
        have hform : Json.dumpSep (y :: ys) ++ ']' :: rest =
            ',' :: ' ' :: (Json.dumpChars y ++ (Json.dumpSep ys ++ ']' :: rest)) := by
          simp [Json.dumpSep, List.append_assoc]
        have step : ∀ u, parseArrTail (f + 1) (',' :: ' ' :: u) =
            (match parseVal f (skipSpaces u) with
             | none => none
             | some (v, rest2) =>
               match parseArrTail f rest2 with
               | none => none
               | some (vs, rest3) => some (v :: vs, rest3)) := fun u => rfl
        rw [hform, step, skipSpaces_dump y hcy.1,
          ihV y hcy.1 hszy.1 _ (noDigitHead_sep ys rest)]
        simp [ihT ys hcy.2 hszy.2 rest]

/-- The fuel `loads` grants (twice the input length plus two) always
suffices for the structure the input serializes. -/
theorem jsize_le_dump (bound : Nat) :
    (∀ j, jsize j ≤ bound → jsize j ≤ 2 * (Json.dumpChars j).length + 2) ∧
    (∀ xs, jsizeL xs ≤ bound → jsizeL xs ≤ 2 * (Json.dumpSep xs).length + 2) := by
  induction bound with
  | zero =>
    constructor
    · intro j hsz
      have := jsize_pos j
      omega
    · intro xs hsz
      have := jsizeL_pos xs
      omega
  | succ b ih =>
    obtain ⟨ihV, ihL⟩ := ih
    constructor
    · intro j hsz
      cases j with
      | null => simp [jsize]
      | num n => simp [jsize]
      | str s => simp [jsize]
      | obj kvs => simp [jsize]
      | arr xs =>
        cases xs with
        | nil => simp [jsize, jsizeL, Json.dumpChars]
        | cons x rest =>
          simp only [jsize, jsizeL] at hsz ⊢
          have h1 := ihV x (by omega)
          have h2 := ihL rest (by omega)
          simp only [Json.dumpChars, List.length_cons, List.length_append]
          omega
    · intro xs hsz
      cases xs with
      | nil => simp [jsizeL, Json.dumpSep]
      | cons y ys =>
        simp only [jsizeL] at hsz ⊢
        have h1 := ihV y (by omega)
        have h2 := ihL ys (by omega)
        simp only [Json.dumpSep, List.length_cons, List.length_append]
        omega

/-- Deserializing the serialized form of any coordinates structure gives
back exactly that structure. -/
theorem loads_dumps (j : Json) (h : isCoord j = true) : loads (Json.dumps j) = some j := by
  have hfuel : jsize j ≤ 2 * (Json.dumpChars j).length + 2 :=
    (jsize_le_dump (jsize j)).1 j le_rfl
  have hskip : skipSpaces (Json.dumpChars j) = Json.dumpChars j := by
    simpa using skipSpaces_dump j h []
  have hparse := (parse_dump (2 * (Json.dumpChars j).length + 2)).1 j h hfuel [] trivial
  rw [List.append_nil] at hparse
  unfold loads
  rw [show (Json.dumps j).data = Json.dumpChars j from rfl,
    show (Json.dumps j).length = (Json.dumpChars j).length from rfl, hskip, hparse]
  rfl

/- ## Characterizing the extraction phase -/

theorem bind_getD_spec (o : Option Json) (sv : SqlVal)
    (h : bindParam (o.getD Json.null) = some sv) : sv = specOf o := by
  cases o with
  | none =>
    simp only [Option.getD_none, bindParam, Option.some.injEq] at h
    simp [specOf, ← h]
  | some v =>
    cases v <;> simp_all [bindParam, specOf]

theorem extract_tail (fidv namev notesv createdv : Option Json) (coordsv : Json) (r : Row)
    (h : ((bindParam (fidv.getD Json.null)).bind fun fenceSql =>
          (bindParam (namev.getD Json.null)).bind fun nameSql =>
          (bindParam (notesv.getD Json.null)).bind fun notesSql =>
          (bindParam (createdv.getD Json.null)).bind fun createdSql =>
          some { fence_id := fenceSql, name := nameSql, notes := notesSql,
                 created_at := createdSql, coordinates := Json.dumps coordsv }) = some r) :
    r = { fence_id := specOf fidv, name := specOf namev, notes := specOf notesv,
          created_at := specOf createdv, coordinates := Json.dumps coordsv } := by
  obtain ⟨fv, hfv, h⟩ := Option.bind_eq_some.mp h
  obtain ⟨nv, hnv, h⟩ := Option.bind_eq_some.mp h
  obtain ⟨tv, htv, h⟩ := Option.bind_eq_some.mp h
  obtain ⟨cv, hcv, h⟩ := Option.bind_eq_some.mp h
  rw [← bind_getD_spec _ _ hfv, ← bind_getD_spec _ _ hnv, ← bind_getD_spec _ _ htv,
    ← bind_getD_spec _ _ hcv]
  exact (Option.some.inj h).symm

set_option maxHeartbeats 1600000 in
theorem extractRow_fields (kvs : List (String × Json)) (r : Row)
    (h : extractRow (Json.obj kvs) = some r) :
    r.fence_id = specField (Json.obj kvs) "fence_id" ∧
    r.name = specProp (Json.obj kvs) "name" ∧
    r.notes = specProp (Json.obj kvs) "notes" ∧
    r.created_at = specField (Json.obj kvs) "created_at" := by
  cases hp : lookupKV kvs "properties" with
  | none =>
    cases hs : lookupKV kvs "shape" with
    | none =>
      simp only [extractRow, pyGet, pyGetD, hp, hs, Option.getD_none, Option.getD_some,
        Option.some_bind, lookupKV, Option.bind_eq_bind] at h
      have hr := extract_tail (lookupKV kvs "fence_id") none none
        (lookupKV kvs "created_at") Json.null r h
      rw [hr]
      simp [specField, specProp, specOf, hp]
    | some w =>
      cases w with
      | obj m2 =>
        simp only [extractRow, pyGet, pyGetD, hp, hs, Option.getD_none, Option.getD_some,
          Option.some_bind, lookupKV, Option.bind_eq_bind] at h
        have hr := extract_tail (lookupKV kvs "fence_id") none none
          (lookupKV kvs "created_at") ((lookupKV m2 "coordinates").getD Json.null) r h
        rw [hr]
        simp [specField, specProp, specOf, hp]
      | null => simp [extractRow, pyGet, pyGetD, hp, hs] at h
      | num n => simp [extractRow, pyGet, pyGetD, hp, hs] at h
      | str s => simp [extractRow, pyGet, pyGetD, hp, hs] at h
      | arr xs => simp [extractRow, pyGet, pyGetD, hp, hs] at h
  | some v =>
    cases v with
    | obj m =>
      cases hs : lookupKV kvs "shape" with
      | none =>
        simp only [extractRow, pyGet, pyGetD, hp, hs, Option.getD_none, Option.getD_some,
          Option.some_bind, lookupKV, Option.bind_eq_bind] at h
        have hr := extract_tail (lookupKV kvs "fence_id") (lookupKV m "name")
          (lookupKV m "notes") (lookupKV kvs "created_at") Json.null r h
        rw [hr]
        simp [specField, specProp, specOf, hp]
      | some w =>
        cases w with
        | obj m2 =>
          simp only [extractRow, pyGet, pyGetD, hp, hs, Option.getD_none, Option.getD_some,
            Option.some_bind, lookupKV, Option.bind_eq_bind] at h
          have hr := extract_tail (lookupKV kvs "fence_id") (lookupKV m "name")
            (lookupKV m "notes") (lookupKV kvs "created_at")
            ((lookupKV m2 "coordinates").getD Json.null) r h
          rw [hr]
          simp [specField, specProp, specOf, hp]
        | null => simp [extractRow, pyGet, pyGetD, hp, hs] at h
        | num n => simp [extractRow, pyGet, pyGetD, hp, hs] at h
        | str s => simp [extractRow, pyGet, pyGetD, hp, hs] at h
        | arr xs => simp [extractRow, pyGet, pyGetD, hp, hs] at h
    | null => simp [extractRow, pyGet, pyGetD, hp] at h
    | num n => simp [extractRow, pyGet, pyGetD, hp] at h
    | str s => simp [extractRow, pyGet, pyGetD, hp] at h
    | arr xs => simp [extractRow, pyGet, pyGetD, hp] at h

/- ## Helper lemmas about the handlers -/

theorem create_eq_created (p : Json) (db db2 : List Row) (c : Nat) (b : Json)
    (h : create_geofence p db = (db2, CreateResult.created c b)) :
    ∃ r, extractRow p = some r ∧ db2 = db ++ [r] ∧ c = 201 ∧ b = successBody := by
  unfold create_geofence at h
  cases hx : extractRow p with
  | none => rw [hx] at h; simp at h
  | some r =>
    rw [hx] at h
    simp only [Prod.mk.injEq, CreateResult.created.injEq] at h
    exact ⟨r, rfl, h.1.symm, h.2.1.symm, h.2.2.symm⟩

theorem get_geofences_list (db : List Row) : (get_geofences db).2.1 = db := by
  simp [get_geofences]

theorem runCreates_valid (ps : List Json) : ∀ db, (∀ p ∈ ps, ValidPayload p) →
    runCreates ps db = db ++ ps.filterMap extractRow := by
  induction ps with
  | nil => intro db _; simp [runCreates]
  | cons p ps ih =>
    intro db hv
    have hp : (extractRow p).isSome = true := hv p (List.mem_cons_self p ps)
    obtain ⟨r, hr⟩ := Option.isSome_iff_exists.mp hp
    simp only [runCreates, create_geofence, hr]
    rw [ih (db ++ [r]) (fun q hq => hv q (List.mem_cons_of_mem p hq))]
    simp [List.filterMap_cons, hr]

theorem filterMap_extract_len (ps : List Json) (h : ∀ p ∈ ps, ValidPayload p) :
    (ps.filterMap extractRow).length = ps.length := by
  induction ps with
  | nil => simp
  | cons p ps ih =>
    have hp : (extractRow p).isSome = true := h p (List.mem_cons_self p ps)
    obtain ⟨r, hr⟩ := Option.isSome_iff_exists.mp hp
    simp [List.filterMap_cons, hr, ih (fun q hq => h q (List.mem_cons_of_mem p hq))]

theorem filterMap_extract_get (ps : List Json) (h : ∀ p ∈ ps, ValidPayload p) :
    ∀ i : Nat, (ps.filterMap extractRow)[i]? = (ps[i]?).bind extractRow := by
  induction ps with
  | nil => intro i; simp
  | cons p ps ih =>
    intro i
    have hp : (extractRow p).isSome = true := h p (List.mem_cons_self p ps)
    obtain ⟨r, hr⟩ := Option.isSome_iff_exists.mp hp
    cases i with
    | zero => simp [List.filterMap_cons, hr]
    | succ i =>
      simp only [List.filterMap_cons, hr, List.getElem?_cons_succ]
      exact ih (fun q hq => h q (List.mem_cons_of_mem p hq)) i

/- ## The claims -/

/-- C1: for every valid create payload, after `create(payload)` succeeds,
a subsequent `list()` returns a sequence including a record whose
`fence_id`, `name`, `notes` and `created_at` are exactly the payload's
corresponding values (absent optional fields matching as SQL NULL). -/
theorem claim_C1_create_then_list (p : Json) (db db2 : List Row) (c : Nat) (b : Json)
    (h : create_geofence p db = (db2, CreateResult.created c b)) :
    ∃ r, r ∈ (get_geofences db2).2.1 ∧
      r.fence_id = specField p "fence_id" ∧ r.name = specProp p "name" ∧
      r.notes = specProp p "notes" ∧ r.created_at = specField p "created_at" := by
  obtain ⟨r, hx, rfl, _, _⟩ := create_eq_created p db db2 c b h
  have hobj : ∃ kvs, p = Json.obj kvs := by
    cases p with
    | obj kvs => exact ⟨kvs, rfl⟩
    | null => simp [extractRow, pyGet] at hx
    | num n => simp [extractRow, pyGet] at hx
    | str s => simp [extractRow, pyGet] at hx
    | arr xs => simp [extractRow, pyGet] at hx
  obtain ⟨kvs, rfl⟩ := hobj
  have hf := extractRow_fields kvs r hx
  refine ⟨r, ?_, hf.1, hf.2.1, hf.2.2.1, hf.2.2.2⟩
  rw [get_geofences_list]
  simp

/-- C1 witness: the example payload against the empty store. -/
theorem claim_C1_witness :
    create_geofence examplePayload [] =
      ([⟨SqlVal.text "f1", SqlVal.text "Yard", SqlVal.text "back",
         SqlVal.text "2024-01-01T00:00:00Z", "[[1, 2], [3, 4]]"⟩],
       CreateResult.created 201 successBody) ∧
    ∃ r, r ∈ (get_geofences [⟨SqlVal.text "f1", SqlVal.text "Yard", SqlVal.text "back",
         SqlVal.text "2024-01-01T00:00:00Z", "[[1, 2], [3, 4]]"⟩]).2.1 ∧
      r.fence_id = specField examplePayload "fence_id" ∧
      r.name = specProp examplePayload "name" ∧
      r.notes = specProp examplePayload "notes" ∧
      r.created_at = specField examplePayload "created_at" :=
  ⟨rfl, claim_C1_create_then_list examplePayload []
    [⟨SqlVal.text "f1", SqlVal.text "Yard", SqlVal.text "back",
      SqlVal.text "2024-01-01T00:00:00Z", "[[1, 2], [3, 4]]"⟩] 201 successBody rfl⟩

/-- C2: deserializing the textual form produced by the coordinate
serialization at line 36 yields a structure equal to the original in
numbers, nesting and array order. -/
theorem claim_C2_roundtrip (j : Json) (h : isCoord j = true) :
    loads (Json.dumps j) = some j :=
  loads_dumps j h

/-- C2 witness: the round-trip at the example coordinates. -/
theorem claim_C2_witness :
    isCoord exampleCoords = true ∧ loads (Json.dumps exampleCoords) = some exampleCoords :=
  ⟨rfl, claim_C2_roundtrip exampleCoords rfl⟩

/-- C3: posting the example payload to an empty store returns 201 with
the success body, and a subsequent list returns exactly one record with
`fence_id="f1"`, `name="Yard"` and decoded coordinates
`[[1.0,2.0],[3.0,4.0]]`. -/
theorem claim_C3_example : ∃ r,
    create_geofence examplePayload [] = ([r], CreateResult.created 201 successBody) ∧
    (get_geofences (create_geofence examplePayload []).1).2 = ([r], 200) ∧
    r.fence_id = SqlVal.text "f1" ∧ r.name = SqlVal.text "Yard" ∧
    loads r.coordinates = some exampleCoords :=
  ⟨⟨SqlVal.text "f1", SqlVal.text "Yard", SqlVal.text "back",
    SqlVal.text "2024-01-01T00:00:00Z", "[[1, 2], [3, 4]]"⟩,
   rfl, rfl, rfl, rfl, rfl⟩

/-- C4: running any sequence of N valid create requests against an empty
store and then listing returns exactly N records. -/
theorem claim_C4_count (ps : List Json) (h : ∀ p ∈ ps, ValidPayload p) :
    ((get_geofences (runCreates ps [])).2.1).length = ps.length := by
  rw [get_geofences_list, runCreates_valid ps [] h]
  simp [filterMap_extract_len ps h]

/-- C4 witness: two valid payloads give a listing of length two. -/
theorem claim_C4_witness :
    (∀ p ∈ [examplePayload, Json.obj []], ValidPayload p) ∧
    ((get_geofences (runCreates [examplePayload, Json.obj []] [])).2.1).length = 2 :=
  ⟨by decide, claim_C4_count [examplePayload, Json.obj []] (by decide)⟩

/-- C5 counterexample: a create call whose payload carries a non-dict
`properties` value appends no row at all, so not every call to create
appends exactly one row. -/
theorem claim_C5_counterexample :
    (create_geofence (Json.obj [("properties", Json.num 7)]) []).1 = [] ∧
    (create_geofence (Json.obj [("properties", Json.num 7)]) []).2 =
      CreateResult.serverError :=
  ⟨rfl, rfl⟩

/-- C5 amended: every create call that succeeds appends exactly one row,
and the appended row does not depend on the store contents — in
particular, re-sending the same payload (same `fence_id`) into the
updated store appends a second, identical row: no existence check, no
upsert, uniqueness not enforced.  A failing call appends nothing. -/
theorem claim_C5_append_one (p : Json) (db db2 : List Row) (c : Nat) (b : Json)
    (h : create_geofence p db = (db2, CreateResult.created c b)) :
    ∃ r, (∀ t : List Row, create_geofence p t = (t ++ [r], CreateResult.created 201 successBody)) ∧
      (create_geofence p ((create_geofence p db).1)).1 = db ++ [r, r] := by
  obtain ⟨r, hx, rfl, rfl, rfl⟩ := create_eq_created p db db2 c b h
  refine ⟨r, fun t => by simp [create_geofence, hx], ?_⟩
  simp [create_geofence, hx]

/-- C5 witness: a duplicate `fence_id` payload, applied twice. -/
theorem claim_C5_witness :
    ∃ r, (∀ t : List Row, create_geofence (Json.obj [("fence_id", Json.str "dup")]) t =
            (t ++ [r], CreateResult.created 201 successBody)) ∧
      (create_geofence (Json.obj [("fence_id", Json.str "dup")])
        ((create_geofence (Json.obj [("fence_id", Json.str "dup")]) []).1)).1 = [] ++ [r, r] :=
  claim_C5_append_one (Json.obj [("fence_id", Json.str "dup")]) []
    [⟨SqlVal.text "dup", SqlVal.null, SqlVal.null, SqlVal.null, "null"⟩]
    201 successBody rfl

/-- C6 counterexample: the payload `{"shape": 5}` omits `properties`
entirely, yet create fails with a server error (Python raises
`AttributeError` on `(5).get("coordinates")`), so the claim does not hold
for every payload omitting `properties`. -/
theorem claim_C6_counterexample :
    lookupKV [("shape", Json.num 5)] "properties" = none ∧
    create_geofence (Json.obj [("shape", Json.num 5)]) [] =
      ([], CreateResult.serverError) :=
  ⟨rfl, rfl⟩

/-- C6 amended: a create payload that is a JSON object omitting
`properties`, whose `shape` (when present) is itself an object, and whose
`fence_id` / `created_at` (when present) are primitive (null, number or
string) succeeds normally; the stored `name` and `notes` are SQL NULL,
and an absent `shape.coordinates` is serialized to the text `"null"`
before insertion. -/
theorem claim_C6_no_properties (kvs : List (String × Json)) (db : List Row)
    (hprops : lookupKV kvs "properties" = none)
    (hshape : ∀ v, lookupKV kvs "shape" = some v → v.isObj = true)
    (hfid : (bindParam ((lookupKV kvs "fence_id").getD Json.null)).isSome = true)
    (hcreated : (bindParam ((lookupKV kvs "created_at").getD Json.null)).isSome = true) :
    ∃ r, create_geofence (Json.obj kvs) db =
        (db ++ [r], CreateResult.created 201 successBody) ∧
      r.name = SqlVal.null ∧ r.notes = SqlVal.null ∧
      (lookupKV kvs "shape" = none → r.coordinates = "null") ∧
      (∀ m, lookupKV kvs "shape" = some (Json.obj m) →
        lookupKV m "coordinates" = none → r.coordinates = "null") := by
  obtain ⟨fv, hfv⟩ := Option.isSome_iff_exists.mp hfid
  obtain ⟨cv, hcv⟩ := Option.isSome_iff_exists.mp hcreated
  cases hs : lookupKV kvs "shape" with
  | none =>
    have hx : extractRow (Json.obj kvs) =
        some { fence_id := fv, name := SqlVal.null, notes := SqlVal.null,
               created_at := cv, coordinates := Json.dumps Json.null } := by
      simp only [extractRow, pyGet, pyGetD, hprops, hs, Option.getD_none, Option.getD_some,
        lookupKV, Option.bind_eq_bind, hfv, hcv,
        show bindParam Json.null = some SqlVal.null from rfl, Option.some_bind]
      rfl
    refine ⟨{ fence_id := fv, name := SqlVal.null, notes := SqlVal.null,
              created_at := cv, coordinates := Json.dumps Json.null },
      by simp [create_geofence, hx], rfl, rfl, fun _ => rfl, fun m hm => ?_⟩
    cases hm
  | some w =>
    have hw := hshape w hs
    cases w with
    | obj m2 =>
      have hx : extractRow (Json.obj kvs) =
          some { fence_id := fv, name := SqlVal.null, notes := SqlVal.null,
                 created_at := cv,
                 coordinates := Json.dumps ((lookupKV m2 "coordinates").getD Json.null) } := by
        simp only [extractRow, pyGet, pyGetD, hprops, hs, Option.getD_none, Option.getD_some,
          lookupKV, Option.bind_eq_bind, hfv, hcv,
          show bindParam Json.null = some SqlVal.null from rfl, Option.some_bind]
        rfl
      refine ⟨{ fence_id := fv, name := SqlVal.null, notes := SqlVal.null,
                created_at := cv,
                coordinates := Json.dumps ((lookupKV m2 "coordinates").getD Json.null) },
        by simp [create_geofence, hx], rfl, rfl, fun habs => ?_, fun m hm hmc => ?_⟩
      · cases habs
      · obtain rfl : m2 = m := Json.obj.inj (Option.some.inj hm)
        simp only [hmc]
        rfl
    | null => simp [Json.isObj] at hw
    | num n => simp [Json.isObj] at hw
    | str s => simp [Json.isObj] at hw
    | arr xs => simp [Json.isObj] at hw

/-- C6 witness: a payload carrying only a `fence_id`. -/
theorem claim_C6_witness :
    lookupKV [("fence_id", Json.str "f7")] "properties" = none ∧
    ∃ r, create_geofence (Json.obj [("fence_id", Json.str "f7")]) [] =
        ([] ++ [r], CreateResult.created 201 successBody) ∧
      r.name = SqlVal.null ∧ r.notes = SqlVal.null ∧
      (lookupKV [("fence_id", Json.str "f7")] "shape" = none → r.coordinates = "null") ∧
      (∀ m, lookupKV [("fence_id", Json.str "f7")] "shape" = some (Json.obj m) →
        lookupKV m "coordinates" = none → r.coordinates = "null") :=
  ⟨rfl, claim_C6_no_properties [("fence_id", Json.str "f7")] [] rfl
    (fun _ h => Option.noConfusion h) rfl rfl⟩

/-- C7: listing a store with zero records returns the empty sequence with
status 200 (and leaves the table empty). -/
theorem claim_C7_empty : get_geofences [] = ([], ([], 200)) :=
  rfl

/-- C8: the service never mutates or removes stored records — `list()`
returns the table unchanged, and a create's only effect on storage is
appending at most one new row, so every previously stored record survives
every operation untouched. -/
theorem claim_C8_frame :
    (∀ db : List Row, (get_geofences db).1 = db) ∧
    (∀ (p : Json) (db : List Row), ∃ tail,
      (create_geofence p db).1 = db ++ tail ∧ tail.length ≤ 1) := by
  refine ⟨fun db => rfl, fun p db => ?_⟩
  cases hx : extractRow p with
  | some r => exact ⟨[r], by simp [create_geofence, hx], by simp⟩
  | none => exact ⟨[], by simp [create_geofence, hx], by simp⟩

/-- C9: a payload whose `properties` value is present but not an object
makes the extraction step fail — the request errors and no row is
appended. -/
theorem claim_C9_bad_properties (kvs : List (String × Json)) (v : Json) (db : List Row)
    (hl : lookupKV kvs "properties" = some v) (hv : v.isObj = false) :
    create_geofence (Json.obj kvs) db = (db, CreateResult.serverError) := by
  have hx : extractRow (Json.obj kvs) = none := by
    cases v with
    | obj m => simp [Json.isObj] at hv
    | null => simp [extractRow, pyGet, pyGetD, hl]
    | num n => simp [extractRow, pyGet, pyGetD, hl]
    | str s => simp [extractRow, pyGet, pyGetD, hl]
    | arr xs => simp [extractRow, pyGet, pyGetD, hl]
  simp [create_geofence, hx]

/-- C9 witness: `properties` bound to the string `"x"`. -/
theorem claim_C9_witness :
    lookupKV [("properties", Json.str "x")] "properties" = some (Json.str "x") ∧
    (Json.str "x").isObj = false ∧
    create_geofence (Json.obj [("properties", Json.str "x")]) [] =
      ([], CreateResult.serverError) :=
  ⟨rfl, rfl, claim_C9_bad_properties [("properties", Json.str "x")] (Json.str "x") [] rfl rfl⟩

/-- C10: after any sequence of valid creates on an empty store, the i-th
record of the listing is the row extracted from the i-th create payload —
insertion order is preserved. -/
theorem claim_C10_order (ps : List Json) (h : ∀ p ∈ ps, ValidPayload p) (i : Nat) :
    ((get_geofences (runCreates ps [])).2.1)[i]? = (ps[i]?).bind extractRow := by
  rw [get_geofences_list, runCreates_valid ps [] h]
  simpa using filterMap_extract_get ps h i

/-- C10 witness: the second listed record is the row of the second create. -/
theorem claim_C10_witness :
    (∀ p ∈ [examplePayload, Json.obj [("fence_id", Json.str "f2")]], ValidPayload p) ∧
    ((get_geofences (runCreates [examplePayload,
        Json.obj [("fence_id", Json.str "f2")]] [])).2.1)[1]? =
      ([examplePayload, Json.obj [("fence_id", Json.str "f2")]][1]?).bind extractRow :=
  ⟨by decide, claim_C10_order [examplePayload, Json.obj [("fence_id", Json.str "f2")]]
    (by decide) 1⟩
